import Mathlib

/-!
Verification of the JTAG protocol engine of s6prog.c (spartan6_programmer).

The definitions below are a shallow embedding of the C source. Machine
integers are modelled as Nat (all values handled are byte values below 256
or small nonnegative counts) or Int where the C int can matter. The global
mutable state (jtag_buf, jtag_buf_i, the ftdi handle) is threaded
explicitly as a JtagS record. The transport collaborator
(ftdi_write_data / ftdi_read_data) is a parameter: writeOk says whether
the k-th write accepts all bytes, and reads gives the bytes delivered by
the k-th read when asked for a given count (a device never delivers more
than asked, hence the take, and delivers byte values, hence the mod 256).
-/

namespace S6Prog

/-! Constants from s6prog.c lines 42-48 and the MPSSE flag table (lines 105-112). -/

def MPSSE_WRITE_NEG : Nat := 0x01

def MPSSE_BITMODE : Nat := 0x02

def MPSSE_LSB : Nat := 0x08

def MPSSE_DO_WRITE : Nat := 0x10

def MPSSE_DO_READ : Nat := 0x20

def MPSSE_WRITE_TMS : Nat := 0x40

def JTAG_BUFFER_SIZE : Nat := 1024 * 1024

def JTAG_CHUNK_SIZE : Nat := 0x8000

def JTAG_RECV_ATTEMPTS : Nat := 20

/-- Transport collaborator (libftdi): writeOk k tells whether the k-th call to
ftdi_write_data accepts the whole buffer; reads k req gives the bytes the k-th
call to ftdi_read_data delivers when req bytes are requested. -/
structure Transport where
  writeOk : Nat → Bool
  reads : Nat → Nat → List Nat

/-- Global engine state of s6prog.c: jtag_buf with its fill index jtag_buf_i is
the byte list buf; sent records the byte blocks handed to successful
ftdi_write_data calls; wIdx and rIdx count transport write and read calls. -/
structure JtagS where
  buf : List Nat
  sent : List (List Nat)
  wIdx : Nat
  rIdx : Nat
  deriving DecidableEq

/-- Embeds jtag_send (s6prog.c lines 129-149): an empty buffer returns 1
without touching the transport; otherwise the buffer is written, a short
write returns 1 leaving the buffer in place, and a full write clears it. -/
def jtag_send (t : Transport) (s : JtagS) : Nat × JtagS :=
  if s.buf.length < 1 then (1, s)
  else if t.writeOk s.wIdx then
    (0, { s with buf := [], sent := s.sent ++ [s.buf], wIdx := s.wIdx + 1 })
  else
    (1, { s with wIdx := s.wIdx + 1 })

/-- Embeds the retry loop of jtag_recv (s6prog.c lines 151-181). The C loop
runs while n > 0 and breaks when the post-decremented attempt counter was
already at or below zero, so the counter value sequence is 20,19,...,1,0 and
the body runs at most JTAG_RECV_ATTEMPTS + 1 times; timeout here is that
counter, recursion is structural on it. wantData mirrors rbuf not being NULL
(every caller in the source passes a real buffer); when it is false the C
code reads up to 32 scratch bytes. A read error from libftdi delivers
nothing here, which the loop treats like an empty read. Returns the final
remaining count (the return value of jtag_recv), the bytes stored into rbuf,
and the next read call index. The bytes one ftdi_read_data call stores is
factored out as recvData: the device is asked for the outstanding count (or
32 into the scratch buffer when rbuf is NULL), delivers at most that many
bytes, and delivers byte values. -/
def recvData (reads : Nat → Nat → List Nat) (wantData : Bool) (rIdx : Nat)
    (n : Int) : List Nat :=
  let req := if wantData then n.toNat else 32
  ((reads rIdx req).take req).map (· % 256)

/-- Embeds the retry loop of jtag_recv (s6prog.c lines 151-181); see the
comment on recvData for the per call delivery. -/
def jtag_recv_go (reads : Nat → Nat → List Nat) (wantData : Bool) :
    Nat → Nat → Int → List Nat → Int × List Nat × Nat
  | rIdx, 0, n, acc =>
    if n ≤ 0 then (n, acc, rIdx)
    else
      let data := recvData reads wantData rIdx n
      (n - (data.length : Int), if wantData then acc ++ data else acc, rIdx + 1)
  | rIdx, timeout + 1, n, acc =>
    if n ≤ 0 then (n, acc, rIdx)
    else
      let data := recvData reads wantData rIdx n
      jtag_recv_go reads wantData (rIdx + 1) timeout (n - (data.length : Int))
        (if wantData then acc ++ data else acc)

/-- Embeds jtag_recv (s6prog.c lines 151-181) against the threaded state. -/
def jtag_recv (t : Transport) (s : JtagS) (wantData : Bool) (n : Int) :
    Int × List Nat × JtagS :=
  let r := jtag_recv_go t.reads wantData s.rIdx JTAG_RECV_ATTEMPTS n []
  (r.1, r.2.1, { s with rIdx := r.2.2 })

/-! TMS state transition encoders, s6prog.c lines 281-354. Each appends one
three byte MPSSE TMS command: opcode, bit count field (bits minus one), and
the data byte holding the TMS pattern in its low bits (sent LSB first) with
the TDI level in bit 7. -/

/-- Embeds jtag_to_tlr (lines 281-287). -/
def jtag_to_tlr (buf : List Nat) : List Nat :=
  buf ++ [MPSSE_WRITE_TMS ||| MPSSE_LSB ||| MPSSE_BITMODE ||| MPSSE_WRITE_NEG, 4, 0x9f]

/-- Embeds jtag_tlr_to_rti (lines 290-296). -/
def jtag_tlr_to_rti (buf : List Nat) : List Nat :=
  buf ++ [MPSSE_WRITE_TMS ||| MPSSE_LSB ||| MPSSE_BITMODE ||| MPSSE_WRITE_NEG, 0, 0x80]

/-- Embeds jtag_rti_to_shift_ir (lines 319-326). -/
def jtag_rti_to_shift_ir (buf : List Nat) : List Nat :=
  buf ++ [MPSSE_WRITE_TMS ||| MPSSE_LSB ||| MPSSE_BITMODE ||| MPSSE_WRITE_NEG, 3, 0x83]

/-- Embeds jtag_rti_to_shift_dr (lines 329-336). -/
def jtag_rti_to_shift_dr (buf : List Nat) : List Nat :=
  buf ++ [MPSSE_WRITE_TMS ||| MPSSE_LSB ||| MPSSE_BITMODE ||| MPSSE_WRITE_NEG, 2, 0x81]

/-- Embeds jtag_exit1_ir_to_rti (lines 338-345). -/
def jtag_exit1_ir_to_rti (buf : List Nat) : List Nat :=
  buf ++ [MPSSE_WRITE_TMS ||| MPSSE_LSB ||| MPSSE_BITMODE ||| MPSSE_WRITE_NEG, 1, 0x81]

/-- Embeds jtag_exit1_dr_to_rti (lines 347-354). -/
def jtag_exit1_dr_to_rti (buf : List Nat) : List Nat :=
  buf ++ [MPSSE_WRITE_TMS ||| MPSSE_LSB ||| MPSSE_BITMODE ||| MPSSE_WRITE_NEG, 1, 0x81]

/-- Embeds jtag_shift_bytes (s6prog.c lines 359-379): appends the byte mode
shift command for n bytes to the buffer, with the payload bytes when tdi is
present (the C code copies tdi[0..n-1]; the list stands for the bytes at the
pointer, of which exactly n are read). There is no capacity check in the
source, so none is modelled. Never called with n = 0 by the source. -/
def jtag_shift_bytes (tdi : Option (List Nat)) (n : Nat) (do_read : Bool)
    (buf : List Nat) : List Nat :=
  let cmd := MPSSE_LSB
    ||| (if tdi.isSome then MPSSE_DO_WRITE ||| MPSSE_WRITE_NEG else 0)
    ||| (if do_read then MPSSE_DO_READ else 0)
  buf ++ [cmd, (n - 1) &&& 0xff, ((n - 1) >>> 8) &&& 0xff]
    ++ (match tdi with
        | some l => l.take n
        | none => [])

/-- Embeds jtag_shift_bits (s6prog.c lines 384-420): for n > 1 a bit mode
command carrying the low n-1 bits of the byte at tdi, then always the forced
single bit TMS command whose data byte has TMS=1 in bit 0 and the top data
bit (bit n-1 of the tdi byte) in bit 7. Callers pass n between 1 and 8. -/
def jtag_shift_bits (tdi : Option Nat) (n : Nat) (do_read : Bool)
    (buf : List Nat) : List Nat :=
  let buf1 :=
    if n > 1 then
      let cmd := MPSSE_BITMODE ||| MPSSE_LSB
        ||| (if tdi.isSome then MPSSE_DO_WRITE ||| MPSSE_WRITE_NEG else 0)
        ||| (if do_read then MPSSE_DO_READ else 0)
      buf ++ [cmd, n - 2]
        ++ (match tdi with
            | some v => [v &&& ((1 <<< (n - 1)) - 1)]
            | none => [])
    else buf
  let cmd2 := MPSSE_WRITE_TMS ||| MPSSE_BITMODE ||| MPSSE_LSB ||| MPSSE_WRITE_NEG
    ||| (if do_read then MPSSE_DO_READ else 0)
  buf1 ++ [cmd2, 0,
    match tdi with
    | some v => if v &&& (1 <<< (n - 1)) ≠ 0 then 0x81 else 0x01
    | none => 0x01]

/-- Embeds the reply realignment computed by jtag_recv_bits (s6prog.c lines
439-447) on the one or two received bytes. -/
def tail_decode (b0 b1 n : Nat) : Nat :=
  if n > 1 then ((b1 &&& 0x80) ||| (b0 >>> 1)) >>> (8 - n)
  else (b0 &&& 0x80) >>> 7

/-- Embeds jtag_recv_bits (s6prog.c lines 424-450): receives two bytes when
n > 1 and one byte otherwise, then realigns them with tail_decode. Returns
the error code, the decoded byte on success, and the new state. -/
def jtag_recv_bits (t : Transport) (s : JtagS) (n : Nat) :
    Nat × Option Nat × JtagS :=
  if n < 1 ∨ n > 8 then (1, none, s)
  else
    let r := jtag_recv t s true (if n > 1 then 2 else 1)
    if r.1 ≠ 0 then (1, none, r.2.2)
    else (0, some (tail_decode (r.2.1.getD 0 0) (r.2.1.getD 1 0) n), r.2.2)

/-- Transport interaction events of the data register transfer, used to state
the flow control discipline of the chunk loop: encode marks a byte mode shift
command of that many bytes entering the command buffer, flush a jtag_send
call, recv a jtag_recv call for that many reply bytes. -/
inductive DrEvent where
  | encode (len : Nat)
  | flush
  | recv (len : Nat)
  deriving DecidableEq

/-- Result of a completed chunk loop: the C locals chunk_length and tdi_i
after the loop, the reply bytes collected into tdo so far, the engine state,
and the event trace of the loop. -/
structure DrLoopResult where
  chunk_length : Nat
  tdi_i : Nat
  tdoAcc : List Nat
  s : JtagS
  trace : List DrEvent
  deriving DecidableEq

/-- Embeds the while loop of jtag_dr_op (s6prog.c lines 476-513). Each
iteration consumes at least one of bytes_remaining, so running it with fuel
equal to the initial bytes_remaining reproduces the C loop exactly: the fuel
zero case is only ever reached with bytes_remaining zero. none stands for the
early return 1 when a send or receive inside the loop fails. -/
def jtag_dr_loop (t : Transport) (tdi : Option (List Nat)) (tdo : Bool) :
    Nat → Nat → Nat → Nat → List Nat → JtagS → Option DrLoopResult
  | 0, _, chunk_prev, tdi_i, tdoAcc, s =>
    some ⟨chunk_prev, tdi_i, tdoAcc, s, []⟩
  | fuel + 1, bytes_remaining, chunk_prev, tdi_i, tdoAcc, s =>
    if bytes_remaining = 0 then some ⟨chunk_prev, tdi_i, tdoAcc, s, []⟩
    else
      let chunk := min bytes_remaining JTAG_CHUNK_SIZE
      let b1 := jtag_shift_bytes (tdi.map fun l => (l.drop tdi_i).take chunk)
        chunk tdo s.buf
      let s1 := { s with buf := b1 }
      let tdi_i1 := if tdi.isSome then tdi_i + chunk else tdi_i
      let rem := bytes_remaining - chunk
      if rem = 0 then
        some ⟨chunk, tdi_i1, tdoAcc, s1, [DrEvent.encode chunk]⟩
      else
        let sd := jtag_send t s1
        if sd.1 ≠ 0 then none
        else if tdo then
          let rc := jtag_recv t sd.2 true (chunk : Int)
          if rc.1 ≠ 0 then none
          else
            let hd := [DrEvent.encode chunk, DrEvent.flush, DrEvent.recv chunk]
            (jtag_dr_loop t tdi tdo fuel rem chunk tdi_i1 (tdoAcc ++ rc.2.1)
                rc.2.2).map
              fun r => { r with trace := hd ++ r.trace }
        else
          let hd := [DrEvent.encode chunk, DrEvent.flush]
          (jtag_dr_loop t tdi tdo fuel rem chunk tdi_i1 tdoAcc sd.2).map
            fun r => { r with trace := hd ++ r.trace }

/-- Embeds s6prog.c line 467: bytes_remaining = (n - 1) / 8. The C operand is
an int; for every n ≥ 0 the C value (with division truncating toward zero)
and this Nat value (with truncated subtraction) coincide, in particular both
give 0 at n = 0. -/
def dr_bytes_remaining (n : Nat) : Nat := (n - 1) / 8

/-- Embeds s6prog.c line 470: bits_remaining = n - bytes_remaining * 8. -/
def dr_bits_remaining (n : Nat) : Nat := n - dr_bytes_remaining n * 8

/-- Embeds the tail reception of jtag_dr_op (s6prog.c lines 548-556): when
bits remain, receive and realign them via jtag_recv_bits and append the
decoded byte to the captured bytes. -/
def dr_op_recv_tail (t : Transport) (tdoAcc : List Nat) (bitsRem : Nat)
    (s : JtagS) : Nat × List Nat × JtagS :=
  if bitsRem > 0 then
    let rb := jtag_recv_bits t s bitsRem
    if rb.1 ≠ 0 then (1, [], rb.2.2)
    else (0, tdoAcc ++ [rb.2.1.getD 0], rb.2.2)
  else (0, tdoAcc, s)

/-- Embeds the capture epilogue of jtag_dr_op (s6prog.c lines 535-557):
receive the bytes of the last chunk when one was encoded, then the tail
bits. -/
def dr_op_finish (t : Transport) (r : DrLoopResult) (bitsRem : Nat)
    (s : JtagS) : Nat × List Nat × JtagS :=
  if r.chunk_length > 0 then
    let rc := jtag_recv t s true (r.chunk_length : Int)
    if rc.1 ≠ 0 then (1, [], rc.2.2)
    else dr_op_recv_tail t (r.tdoAcc ++ rc.2.1) bitsRem rc.2.2
  else dr_op_recv_tail t r.tdoAcc bitsRem s

/-- Embeds jtag_dr_op (s6prog.c lines 455-560). tdi is the write buffer (the
bytes at the pointer), tdo the capture flag (tdo not NULL); the captured
bytes are returned in place of writing through the pointer. Error paths
return code 1 exactly where the C function does; the state returned on an
error path is not inspected by any caller (they only branch on the code). -/
def jtag_dr_op (t : Transport) (tdi : Option (List Nat)) (tdo : Bool)
    (n : Nat) (s : JtagS) : Nat × List Nat × JtagS :=
  if tdi.isNone ∧ tdo = false then (1, [], s)
  else
    let s1 := { s with buf := jtag_rti_to_shift_dr s.buf }
    let bytesRem := dr_bytes_remaining n
    let bitsRem := dr_bits_remaining n
    match jtag_dr_loop t tdi tdo bytesRem bytesRem 0 0 [] s1 with
    | none => (1, [], s1)
    | some r =>
      let tailBuf := jtag_shift_bits (tdi.map fun l => l.getD r.tdi_i 0)
        bitsRem tdo r.s.buf
      let s2 := if bitsRem > 0 then { r.s with buf := tailBuf } else r.s
      let s3 := { s2 with buf := jtag_exit1_dr_to_rti s2.buf }
      let sd := jtag_send t s3
      if sd.1 ≠ 0 then (1, [], sd.2)
      else if tdo then dr_op_finish t r bitsRem sd.2
      else (0, [], sd.2)

/-- Embeds jtag_mpsse_sync (s6prog.c lines 580-589): append the invalid
command byte 0xaa, flush (the send result is ignored by the source), receive
two bytes, and or together the receive result with the two byte mismatch
flags. The middle component exposes the received echo bytes. When fewer than
two bytes arrive the C code compares uninitialized stack bytes, but the
nonzero receive result already forces a nonzero return then, so defaulting
the missing bytes to 0 does not change the zero versus nonzero outcome. -/
def jtag_mpsse_sync (t : Transport) (s : JtagS) : Nat × List Nat × JtagS :=
  let s1 := { s with buf := s.buf ++ [0xaa] }
  let s2 := (jtag_send t s1).2
  let r := jtag_recv t s2 true 2
  (r.1.toNat ||| (if r.2.1.getD 0 0 ≠ 0xfa then 1 else 0)
    ||| (if r.2.1.getD 1 0 ≠ 0xaa then 1 else 0),
   r.2.1, r.2.2)

/-- Embeds bit_swap (s6prog.c lines 608-613): the three mask and shift steps
that reverse the bit order of a byte. -/
def bit_swap (c : Nat) : Nat :=
  let c1 := ((c &&& 0xf0) >>> 4) ||| ((c &&& 0x0f) <<< 4)
  let c2 := ((c1 &&& 0xcc) >>> 2) ||| ((c1 &&& 0x33) <<< 2)
  ((c2 &&& 0xaa) >>> 1) ||| ((c2 &&& 0x55) <<< 1)

/-! Definitions taken from the words of the spec, for comparison against the
source embeddings above. -/

/-- Decoding formula exactly as the spec states it in section 4.3 step 7:
((secondByte AND 0x80) OR (firstByte SHR 1)) SHR (8 - tailBits) when
tailBits > 1, and (firstByte AND 0x80) SHR 7 when tailBits = 1. -/
def spec_tail_formula (firstByte secondByte tailBits : Nat) : Nat :=
  if tailBits > 1 then
    ((secondByte &&& 0x80) ||| (firstByte >>> 1)) >>> (8 - tailBits)
  else (firstByte &&& 0x80) >>> 7

/-- Modelled from the spec: the bridge chip bit mode read framing (spec
sections 4.3 step 7 and 6; the chip is an external collaborator, not code
under src/). In LSB first bit mode the chip shifts each sampled bit into the
reply byte from the most significant end, so after k bits the first sampled
bit sits at bit 8-k and the last at bit 7. -/
def mpsse_bit_read_reply (bits : List Bool) : Nat :=
  bits.foldl (fun acc b => (acc >>> 1) ||| (if b then 0x80 else 0)) 0

/-- Reply bytes produced by a pass through shift register (TDO looped back to
TDI, the test double of spec section 8) for the tail path encoding of the
byte v with n tail bits: the bit mode command echoes the n-1 payload bits it
shifts out, and the forced single bit TMS command echoes the TDI level it
holds, which is bit 7 of its data byte. The bytes are read off the actual
command stream that jtag_shift_bits encodes. -/
def tail_loopback_replies (v n : Nat) : Nat × Nat :=
  let out := jtag_shift_bits (some v) n true []
  if n > 1 then
    let payload := out.getD 2 0
    let finalByte := out.getD 5 0
    (mpsse_bit_read_reply ((List.range (n - 1)).map fun i => payload.testBit i),
     mpsse_bit_read_reply [finalByte.testBit 7])
  else
    let finalByte := out.getD 2 0
    (mpsse_bit_read_reply [finalByte.testBit 7], 0)

/-- Chunk lengths of a byte transfer as the spec describes them: greedy
pieces of at most JTAG_CHUNK_SIZE bytes. Structural fuel as in jtag_dr_loop:
fuel b suffices for b bytes. -/
def chunksF : Nat → Nat → List Nat
  | 0, _ => []
  | fuel + 1, b =>
    if b = 0 then []
    else min b JTAG_CHUNK_SIZE :: chunksF fuel (b - min b JTAG_CHUNK_SIZE)

/-- Chunk lengths of a transfer of b whole bytes. -/
def chunks (b : Nat) : List Nat := chunksF b b

/-- Event pattern the spec demands of the chunk loop (section 4.3 step 4):
every chunk except the last is encoded, then flushed, then, when capturing,
its reply bytes are received, strictly before the next chunk is encoded; the
last chunk is only encoded inside the loop. -/
def chunkPattern (capture : Bool) : List Nat → List DrEvent
  | [] => []
  | [c] => [DrEvent.encode c]
  | c :: rest =>
    DrEvent.encode c :: DrEvent.flush ::
      ((if capture then [DrEvent.recv c] else []) ++ chunkPattern capture rest)

/-- TMS pattern carried by a TMS command unit with the given count field and
data byte: the count field plus one low bits of the data byte, in
transmission order (LSB first). -/
def tmsUnitPattern (cnt data : Nat) : List Bool :=
  (List.range (cnt + 1)).map fun i => data.testBit i

/-! Concrete transport doubles and start states used by witnesses and
counterexamples. -/

/-- Transport whose writes always succeed and whose reads never deliver. -/
def emptyT : Transport := ⟨fun _ => true, fun _ _ => []⟩

/-- Transport whose writes always fail. -/
def failT : Transport := ⟨fun _ => false, fun _ _ => []⟩

/-- Transport whose writes succeed and whose reads always deliver as many
zero bytes as requested. -/
def idealT : Transport := ⟨fun _ => true, fun _ req => List.replicate req 0⟩

/-- Transport double for the resync handshake: writes succeed and every read
offers the two byte error echo 0xfa 0xaa. -/
def echoT : Transport := ⟨fun _ => true, fun _ _ => [0xfa, 0xaa]⟩

/-- Fresh engine state: empty command buffer, nothing sent, no transport
calls made. -/
def s0 : JtagS := ⟨[], [], 0, 0⟩

/-- Engine state whose command buffer holds one pending byte. -/
def s1 : JtagS := ⟨[0xaa], [], 0, 0⟩

/-! Helper lemmas shared by the claim theorems. -/

theorem nat_or_eq_zero (a b : Nat) : a ||| b = 0 ↔ a = 0 ∧ b = 0 := by
  constructor
  · intro h
    constructor <;>
      refine Nat.eq_of_testBit_eq fun i => ?_
    · have := congrArg (fun x => Nat.testBit x i) h
      simpa [Nat.testBit_or] using And.left (by
        simpa [Nat.testBit_or, Bool.or_eq_false_iff] using this)
    · have := congrArg (fun x => Nat.testBit x i) h
      simpa [Nat.testBit_or] using And.right (by
        simpa [Nat.testBit_or, Bool.or_eq_false_iff] using this)
  · rintro ⟨rfl, rfl⟩
    rfl

theorem opcode_tms_eq :
    MPSSE_WRITE_TMS ||| MPSSE_LSB ||| MPSSE_BITMODE ||| MPSSE_WRITE_NEG = 0x4b := by
  decide

theorem shift_bytes_length_some (l : List Nat) (n : Nat) (rd : Bool)
    (buf : List Nat) (hl : l.length = n) :
    (jtag_shift_bytes (some l) n rd buf).length = buf.length + 3 + n := by
  have ht : l.take n = l := by
    rw [← hl]
    exact List.take_length l
  simp [jtag_shift_bytes, ht, hl]
  omega

/-! Claim theorems. -/

/-- C2: for every bit length n ≥ 1 the data register transfer splits n into
wholeBytes = (n-1)/8 and tailBits = n - wholeBytes*8, tailBits always lies in
1..8, and in particular n in 1..8 gives wholeBytes 0 and tailBits n, n = 9
gives 1 and 1, and n = 16 gives 1 and 8. -/
theorem c2_dr_split :
    (∀ n : Nat, 1 ≤ n →
      dr_bytes_remaining n = (n - 1) / 8 ∧
      dr_bits_remaining n = n - dr_bytes_remaining n * 8 ∧
      1 ≤ dr_bits_remaining n ∧ dr_bits_remaining n ≤ 8) ∧
    (∀ n : Nat, 1 ≤ n → n ≤ 8 →
      dr_bytes_remaining n = 0 ∧ dr_bits_remaining n = n) ∧
    (dr_bytes_remaining 9 = 1 ∧ dr_bits_remaining 9 = 1) ∧
    (dr_bytes_remaining 16 = 1 ∧ dr_bits_remaining 16 = 8) := by
  refine ⟨fun n h => ⟨rfl, rfl, ?_, ?_⟩, fun n h1 h2 => ⟨?_, ?_⟩,
      by decide, by decide⟩ <;>
    simp only [dr_bytes_remaining, dr_bits_remaining] <;> omega

/-- Witness for C2 at n = 5. -/
theorem c2_dr_split_witness :
    dr_bytes_remaining 5 = 0 ∧ dr_bits_remaining 5 = 5 :=
  c2_dr_split.2.1 5 (by decide) (by decide)

section
set_option maxRecDepth 8192

/-- C9: bit_swap realizes the reference bit reversal permutation, bit i of the
result being bit 7-i of the argument for every byte, and is an involution on
bytes. -/
theorem c9_bit_swap :
    (∀ c : Nat, c < 256 → ∀ i : Nat, i < 8 →
      (bit_swap c).testBit i = c.testBit (7 - i)) ∧
    (∀ c : Nat, c < 256 → bit_swap (bit_swap c) = c) := by
  decide

/-- Witness for C9 at byte 0x2d beyond bit position 1. -/
theorem c9_bit_swap_witness :
    (bit_swap 0x2d).testBit 1 = (0x2d : Nat).testBit 6 ∧
    bit_swap (bit_swap 0x2d) = 0x2d :=
  ⟨c9_bit_swap.1 0x2d (by decide) 1 (by decide), c9_bit_swap.2 0x2d (by decide)⟩

end

/-- C10: flushing an empty command buffer returns the same nonzero code 1 as
a short write failure, without calling the transport (the state, including
the write call counter, is returned unchanged), while the short write path
does call the transport; a caller checking the code alone cannot tell the
two apart. -/
theorem c10_empty_flush :
    ∀ (t : Transport) (s : JtagS) (t2 : Transport) (s2 : JtagS),
      s.buf = [] → s2.buf ≠ [] → t2.writeOk s2.wIdx = false →
      jtag_send t s = (1, s) ∧ (jtag_send t2 s2).1 = 1 ∧
      (jtag_send t2 s2).2.wIdx = s2.wIdx + 1 ∧ (jtag_send t s).2.wIdx = s.wIdx := by
  intro t s t2 s2 h1 h2 h3
  have l1 : s.buf.length < 1 := by simp [h1]
  have l2 : ¬ s2.buf.length < 1 := by
    have := List.length_pos.mpr h2
    omega
  refine ⟨?_, ?_, ?_, ?_⟩ <;> simp [jtag_send, l1, l2, h3]

/-- Witness for C10: fresh empty state against a state holding one byte whose
write fails. -/
theorem c10_empty_flush_witness :
    jtag_send emptyT s0 = (1, s0) ∧ (jtag_send failT s1).1 = 1 ∧
    (jtag_send failT s1).2.wIdx = s1.wIdx + 1 ∧
    (jtag_send emptyT s0).2.wIdx = s0.wIdx :=
  c10_empty_flush emptyT s0 failT s1 rfl (by decide) rfl

/-- Counterexample for C7: the claim states that exit1IRToIdle carries TMS
pattern 0,1, but the appended unit is opcode 0x4b, count field 1, data byte
0x81, whose two low bits in LSB first transmission order are 1 then 0. -/
theorem c7_exit1_pattern_cex :
    jtag_exit1_ir_to_rti [] = [0x4b, 1, 0x81] ∧
    tmsUnitPattern 1 ((jtag_exit1_ir_to_rti []).getD 2 0) = [true, false] ∧
    tmsUnitPattern 1 ((jtag_exit1_ir_to_rti []).getD 2 0) ≠ [false, true] := by
  decide

/-- C7 as amended: every TAP operation appends exactly one TMS command unit,
opcode then count field then one data byte, low bits the LSB first TMS
pattern and bit 7 the constant data line level (always high here); the
patterns are forceReset 1,1,1,1,1; resetToIdle 0; idleToShiftIR 1,1,0,0;
idleToShiftDR 1,0,0; and exit1IRToIdle and exit1DRToIdle 1,0 (TMS high then
low), not 0,1 as the original claim stated. -/
theorem c7_tms_units : ∀ buf : List Nat,
    (jtag_to_tlr buf = buf ++ [0x4b, 4, 0x9f] ∧
      tmsUnitPattern 4 0x9f = [true, true, true, true, true]) ∧
    (jtag_tlr_to_rti buf = buf ++ [0x4b, 0, 0x80] ∧
      tmsUnitPattern 0 0x80 = [false]) ∧
    (jtag_rti_to_shift_ir buf = buf ++ [0x4b, 3, 0x83] ∧
      tmsUnitPattern 3 0x83 = [true, true, false, false]) ∧
    (jtag_rti_to_shift_dr buf = buf ++ [0x4b, 2, 0x81] ∧
      tmsUnitPattern 2 0x81 = [true, false, false]) ∧
    (jtag_exit1_ir_to_rti buf = buf ++ [0x4b, 1, 0x81] ∧
      tmsUnitPattern 1 0x81 = [true, false]) ∧
    (jtag_exit1_dr_to_rti buf = buf ++ [0x4b, 1, 0x81] ∧
      tmsUnitPattern 1 0x81 = [true, false]) ∧
    ((0x9f : Nat).testBit 7 = true ∧ (0x80 : Nat).testBit 7 = true ∧
      (0x83 : Nat).testBit 7 = true ∧ (0x81 : Nat).testBit 7 = true) := by
  intro buf
  refine ⟨⟨?_, by decide⟩, ⟨?_, by decide⟩, ⟨?_, by decide⟩, ⟨?_, by decide⟩,
      ⟨?_, by decide⟩, ⟨?_, by decide⟩, by decide⟩ <;>
    simp [jtag_to_tlr, jtag_tlr_to_rti, jtag_rti_to_shift_ir,
      jtag_rti_to_shift_dr, jtag_exit1_ir_to_rti, jtag_exit1_dr_to_rti,
      opcode_tms_eq]

/-- Counterexample for C4: a single append of a buffer sized payload to an
empty command buffer grows the buffer past JTAG_BUFFER_SIZE; nothing fails
and nothing is truncated, because the source performs no capacity check. -/
theorem c4_overflow_cex :
    JTAG_BUFFER_SIZE <
      (jtag_shift_bytes (some (List.replicate JTAG_BUFFER_SIZE 0))
        JTAG_BUFFER_SIZE false []).length := by
  have h := shift_bytes_length_some (List.replicate JTAG_BUFFER_SIZE 0)
    JTAG_BUFFER_SIZE false []
    (by simp : (List.replicate JTAG_BUFFER_SIZE (0 : Nat)).length = JTAG_BUFFER_SIZE)
  rw [h]
  omega

/-- C4 as amended: appends to the command buffer are unchecked; every append
keeps the old contents as a prefix and grows the length by exactly the
encoded command size (3 header bytes plus the payload when writing),
regardless of any capacity bound, and no Overflow error exists anywhere in
the interface. -/
theorem c4_append_unchecked :
    ∀ (buf l : List Nat) (n : Nat) (rd : Bool), l.length = n →
      jtag_shift_bytes (some l) n rd buf =
        buf ++ jtag_shift_bytes (some l) n rd [] ∧
      (jtag_shift_bytes (some l) n rd buf).length = buf.length + 3 + n ∧
      (jtag_shift_bytes none n rd buf).length = buf.length + 3 := by
  intro buf l n rd hl
  have ht : l.take n = l := by
    rw [← hl]
    exact List.take_length l
  refine ⟨?_, ?_, ?_⟩ <;> (simp [jtag_shift_bytes, ht, hl]; try omega)

/-- Witness for C4 as amended, appending two payload bytes to a one byte
buffer. -/
theorem c4_append_unchecked_witness :
    jtag_shift_bytes (some [5, 6]) 2 false [1] =
      [1] ++ jtag_shift_bytes (some [5, 6]) 2 false [] ∧
    (jtag_shift_bytes (some [5, 6]) 2 false [1]).length =
      ([1] : List Nat).length + 3 + 2 ∧
    (jtag_shift_bytes none 2 false [1]).length = ([1] : List Nat).length + 3 :=
  c4_append_unchecked [1] [5, 6] 2 false rfl

/-- Counterexample for C8: a zero bit length with a write buffer supplied is
not rejected; against a transport whose writes succeed the transfer returns
0 (success), not the InvalidArgument failure the claim requires. -/
theorem c8_zero_length_cex :
    (jtag_dr_op emptyT (some [0]) false 0 s0).1 = 0 := by
  decide

/-- C8 as amended: the transfer fails with the invalid argument code 1,
before any command is encoded and with the state unchanged, exactly when
neither a write nor a read buffer is supplied; a zero bit length is not
rejected, the transfer then encodes only the DR entry and exit TMS commands
and reports success when the flush succeeds. -/
theorem c8_invalid_argument :
    (∀ (t : Transport) (n : Nat) (s : JtagS),
      jtag_dr_op t none false n s = (1, [], s)) ∧
    (∀ (t : Transport) (s : JtagS), t.writeOk s.wIdx = true →
      (jtag_dr_op t (some [0]) false 0 s).1 = 0) := by
  constructor
  · intro t n s
    simp [jtag_dr_op]
  · intro t s hw
    simp [jtag_dr_op, dr_bytes_remaining, dr_bits_remaining, jtag_dr_loop,
      jtag_send, jtag_rti_to_shift_dr, jtag_exit1_dr_to_rti, hw]

/-- Witness for C8 as amended at a concrete transport and state. -/
theorem c8_invalid_argument_witness :
    jtag_dr_op emptyT none false 5 s0 = (1, [], s0) ∧
    (jtag_dr_op emptyT (some [0]) false 0 s0).1 = 0 :=
  ⟨c8_invalid_argument.1 emptyT 5 s0, c8_invalid_argument.2 emptyT s0 rfl⟩

section
set_option maxRecDepth 8192

/-- C1: for every tailBits in 1..8 and 8-bit value v, encoding v through the
tail path of jtag_shift_bits, passing the shifted bits through the bridge
chip bit mode framing of a pass through register, and decoding the one or two
reply bytes with the realignment of jtag_recv_bits yields v truncated to its
low tailBits bits; moreover that realignment is exactly the formula the spec
states in section 4.3 step 7. -/
theorem c1_tail_roundtrip :
    ∀ n : Nat, 1 ≤ n → n ≤ 8 →
      (∀ v : Nat, v < 256 →
        tail_decode (tail_loopback_replies v n).1 (tail_loopback_replies v n).2 n =
          v % 2 ^ n) ∧
      (∀ b0 b1 : Nat, tail_decode b0 b1 n = spec_tail_formula b0 b1 n) := by
  intro n h1 h2
  refine ⟨?_, fun b0 b1 => rfl⟩
  interval_cases n <;> decide

/-- Witness for C1 at tailBits 3 and value 0xa5. -/
theorem c1_tail_roundtrip_witness :
    tail_decode (tail_loopback_replies 0xa5 3).1 (tail_loopback_replies 0xa5 3).2 3 =
      0xa5 % 2 ^ 3 ∧
    tail_decode 0x40 0x80 3 = spec_tail_formula 0x40 0x80 3 :=
  ⟨(c1_tail_roundtrip 3 (by decide) (by decide)).1 0xa5 (by decide),
   (c1_tail_roundtrip 3 (by decide) (by decide)).2 0x40 0x80⟩

end

/-! Lemmas about the receive loop. -/

theorem recvData_len_le (reads : Nat → Nat → List Nat) (rIdx : Nat) (n : Int) :
    ((recvData reads true rIdx n).length : Int) ≤ if 0 ≤ n then n else 0 := by
  simp [recvData, List.length_take]
  omega

theorem recvData_len_lt (reads : Nat → Nat → List Nat)
    (H : ∀ k r, 0 < r → (reads k r).length < r)
    (rIdx : Nat) (n : Int) (hn : 0 < n) :
    ((recvData reads true rIdx n).length : Int) < n := by
  have h1 := H rIdx n.toNat (by omega)
  simp [recvData, List.length_take]
  omega

theorem recv_go_zero (reads : Nat → Nat → List Nat) (w : Bool) :
    ∀ (timeout rIdx : Nat) (acc : List Nat),
      jtag_recv_go reads w rIdx timeout 0 acc = (0, acc, rIdx) := by
  intro timeout rIdx acc
  cases timeout <;> simp [jtag_recv_go]

theorem recv_go_rIdx_le (reads : Nat → Nat → List Nat) (w : Bool) :
    ∀ (timeout rIdx : Nat) (n : Int) (acc : List Nat),
      (jtag_recv_go reads w rIdx timeout n acc).2.2 ≤ rIdx + timeout + 1 := by
  intro timeout
  induction timeout with
  | zero =>
    intro rIdx n acc
    by_cases h : n ≤ 0 <;> simp [jtag_recv_go, h]
  | succ t ih =>
    intro rIdx n acc
    by_cases h : n ≤ 0
    · simp [jtag_recv_go, h]
      omega
    · simp [jtag_recv_go, h]
      refine le_trans (ih _ _ _) ?_
      omega

theorem recv_go_sum (reads : Nat → Nat → List Nat) :
    ∀ (timeout rIdx : Nat) (n : Int) (acc : List Nat), 0 ≤ n →
      0 ≤ (jtag_recv_go reads true rIdx timeout n acc).1 ∧
      (jtag_recv_go reads true rIdx timeout n acc).1 +
        ((jtag_recv_go reads true rIdx timeout n acc).2.1.length : Int) =
        n + acc.length := by
  intro timeout
  induction timeout with
  | zero =>
    intro rIdx n acc hn
    by_cases h : n ≤ 0
    · simp [jtag_recv_go, h]
      omega
    · have hd := recvData_len_le reads rIdx n
      rw [if_pos hn] at hd
      simp [jtag_recv_go, h]
      omega
  | succ t ih =>
    intro rIdx n acc hn
    by_cases h : n ≤ 0
    · simp [jtag_recv_go, h]
      omega
    · have hd := recvData_len_le reads rIdx n
      rw [if_pos hn] at hd
      simp [jtag_recv_go, h]
      have key := ih (rIdx + 1)
        (n - ((recvData reads true rIdx n).length : Int))
        (acc ++ recvData reads true rIdx n) (by omega)
      simp only [List.length_append] at key
      push_cast at key ⊢
      constructor
      · exact key.1
      · omega

theorem recv_go_short_pos (reads : Nat → Nat → List Nat)
    (H : ∀ k r, 0 < r → (reads k r).length < r) :
    ∀ (timeout rIdx : Nat) (n : Int) (acc : List Nat), 0 < n →
      0 < (jtag_recv_go reads true rIdx timeout n acc).1 := by
  intro timeout
  induction timeout with
  | zero =>
    intro rIdx n acc hn
    have hd := recvData_len_lt reads H rIdx n hn
    simp [jtag_recv_go, (show ¬ n ≤ 0 by omega)]
    omega
  | succ t ih =>
    intro rIdx n acc hn
    have hd := recvData_len_lt reads H rIdx n hn
    simp [jtag_recv_go, (show ¬ n ≤ 0 by omega)]
    exact ih _ _ _ (by omega)

theorem jtag_recv_sum (t : Transport) (s : JtagS) (n : Int) (hn : 0 ≤ n) :
    0 ≤ (jtag_recv t s true n).1 ∧
    (jtag_recv t s true n).1 + (((jtag_recv t s true n).2.1.length : Int)) = n := by
  have key := recv_go_sum t.reads JTAG_RECV_ATTEMPTS s.rIdx n [] hn
  simpa [jtag_recv] using key

theorem jtag_recv_sent (t : Transport) (s : JtagS) (w : Bool) (n : Int) :
    (jtag_recv t s w n).2.2.sent = s.sent := rfl

theorem jtag_recv_buf (t : Transport) (s : JtagS) (w : Bool) (n : Int) :
    (jtag_recv t s w n).2.2.buf = s.buf := rfl

theorem jtag_send_ok (t : Transport) (s : JtagS) (hw : t.writeOk s.wIdx = true)
    (hb : s.buf ≠ []) :
    jtag_send t s =
      (0, { s with buf := [], sent := s.sent ++ [s.buf], wIdx := s.wIdx + 1 }) := by
  have l2 : ¬ s.buf.length < 1 := by
    have := List.length_pos.mpr hb
    omega
  simp [jtag_send, l2, hw]

/-- C6: jtag_mpsse_sync sends the single invalid command byte 0xAA, flushes,
and returns zero exactly when the receive loop delivers the two byte echo
0xFA 0xAA; any other delivery, short data included, gives a nonzero code. -/
theorem c6_sync_echo :
    ∀ (t : Transport) (s : JtagS),
      ((jtag_mpsse_sync t s).1 = 0 ↔ (jtag_mpsse_sync t s).2.1 = [0xfa, 0xaa]) ∧
      (s.buf = [] → t.writeOk s.wIdx = true →
        (jtag_mpsse_sync t s).2.2.sent = s.sent ++ [[0xaa]]) := by
  intro t s
  constructor
  · simp only [jtag_mpsse_sync]
    have key := jtag_recv_sum t ((jtag_send t { s with buf := s.buf ++ [0xaa] }).2)
      2 (by omega)
    set r := jtag_recv t ((jtag_send t { s with buf := s.buf ++ [0xaa] }).2) true 2
      with hr
    rw [nat_or_eq_zero, nat_or_eq_zero]
    constructor
    · rintro ⟨⟨h0, h1⟩, h2⟩
      have hr0 : r.1 = 0 := by omega
      have hlen : r.2.1.length = 2 := by omega
      obtain ⟨a, b, hab⟩ := List.length_eq_two.mp hlen
      rw [hab] at h1 h2 ⊢
      simp only [List.getD] at h1 h2
      by_cases ha : a = 0xfa
      · by_cases hb2 : b = 0xaa
        · rw [ha, hb2]
        · simp [hb2] at h2
      · simp [ha] at h1
    · intro h
      rw [h] at key ⊢
      have hr0 : r.1 = 0 := by
        have := key.2
        simp at this
        omega
      simp [hr0]
  · intro hb hw
    have h1 : ({ s with buf := s.buf ++ [0xaa] } : JtagS).buf = [0xaa] := by
      simp [hb]
    simp only [jtag_mpsse_sync, jtag_recv_sent]
    rw [jtag_send_ok t _ (by simpa using hw) (by simp [h1])]
    simp [hb]

/-- Witness for C6 against the echoing double. -/
theorem c6_sync_echo_witness :
    ((jtag_mpsse_sync echoT s0).1 = 0 ↔
      (jtag_mpsse_sync echoT s0).2.1 = [0xfa, 0xaa]) ∧
    (jtag_mpsse_sync echoT s0).2.2.sent = s0.sent ++ [[0xaa]] :=
  ⟨(c6_sync_echo echoT s0).1, (c6_sync_echo echoT s0).2 rfl rfl⟩

/-! Lemmas for the data register transfer against a transport whose reads
always deliver fewer bytes than requested. -/

theorem dr_bits_range (n : Nat) (hn : 1 ≤ n) :
    1 ≤ dr_bits_remaining n ∧ dr_bits_remaining n ≤ 8 := by
  simp only [dr_bits_remaining, dr_bytes_remaining]
  omega

theorem jtag_recv_short_pos (t : Transport)
    (H : ∀ k r, 0 < r → (t.reads k r).length < r)
    (s : JtagS) (n : Int) (hn : 0 < n) : 0 < (jtag_recv t s true n).1 := by
  have key := recv_go_short_pos t.reads H JTAG_RECV_ATTEMPTS s.rIdx n [] hn
  simpa [jtag_recv] using key

theorem jtag_recv_bits_short (t : Transport)
    (H : ∀ k r, 0 < r → (t.reads k r).length < r)
    (s : JtagS) (m : Nat) (hm : 1 ≤ m) (hm8 : m ≤ 8) :
    (jtag_recv_bits t s m).1 = 1 := by
  have hno : ¬ (m < 1 ∨ m > 8) := by omega
  have hp : 0 < (jtag_recv t s true (if m > 1 then 2 else 1)).1 := by
    refine jtag_recv_short_pos t H s _ ?_
    split <;> norm_num
  simp only [jtag_recv_bits, if_neg hno]
  rw [if_pos (by omega : (jtag_recv t s true (if m > 1 then 2 else 1)).1 ≠ 0)]

theorem exit1_dr_buf_ne_nil (b : List Nat) : jtag_exit1_dr_to_rti b ≠ [] := by
  simp [jtag_exit1_dr_to_rti]

/-- First iteration of the chunk loop against a transport with functioning
writes whose reads always fall short: a transfer of at most one chunk leaves
the loop with that chunk encoded, and a transfer needing a second chunk dies
on the receive of the first chunk. -/
theorem dr_loop_short (t : Transport) (tdi : Option (List Nat))
    (H : ∀ k r, 0 < r → (t.reads k r).length < r) :
    ∀ (f b ch ti : Nat) (acc : List Nat) (s : JtagS), 0 < b → b ≤ f →
      (b ≤ JTAG_CHUNK_SIZE ∧ ∃ r, jtag_dr_loop t tdi true f b ch ti acc s = some r ∧
        r.chunk_length = b) ∨
      (JTAG_CHUNK_SIZE < b ∧ jtag_dr_loop t tdi true f b ch ti acc s = none) := by
  intro f b ch ti acc s hb hf
  obtain ⟨m, rfl⟩ : ∃ m, f = m + 1 := ⟨f - 1, by omega⟩
  by_cases hsmall : b ≤ JTAG_CHUNK_SIZE
  · left
    refine ⟨hsmall, ?_⟩
    have hmin : min b JTAG_CHUNK_SIZE = b := by omega
    simp only [jtag_dr_loop, if_neg (by omega : ¬ b = 0), hmin, Nat.sub_self,
      if_pos rfl]
    exact ⟨_, rfl, rfl⟩
  · right
    refine ⟨by omega, ?_⟩
    have hrem : ¬ b - min b JTAG_CHUNK_SIZE = 0 := by
      have hc : (JTAG_CHUNK_SIZE : Nat) = 32768 := rfl
      omega
    simp only [jtag_dr_loop, if_neg (by omega : ¬ b = 0)]
    rw [if_neg hrem]
    split
    · rfl
    · rw [if_pos trivial]
      split
      · rfl
      · rename_i hrc
        exfalso
        rw [not_not] at hrc
        have hpos : (0 : Int) < ((min b JTAG_CHUNK_SIZE : Nat) : Int) := by
          have hc : (JTAG_CHUNK_SIZE : Nat) = 32768 := rfl
          push_cast
          omega
        exact absurd hrc (jtag_recv_short_pos t H _ _ hpos).ne'

/-- Against a transport whose writes succeed and whose reads always deliver
fewer bytes than requested, every capturing data register transfer of at
least one bit returns the failure code 1 (after the bounded receive attempts
give up), rather than hanging. -/
theorem dr_op_short_fails (t : Transport) (tdi : Option (List Nat)) (n : Nat)
    (s : JtagS) (hw : ∀ k, t.writeOk k = true)
    (H : ∀ k r, 0 < r → (t.reads k r).length < r) (hn : 1 ≤ n) :
    (jtag_dr_op t tdi true n s).1 = 1 := by
  have hbits := dr_bits_range n hn
  simp only [jtag_dr_op]
  rw [if_neg (by simp)]
  rcases Nat.eq_zero_or_pos (dr_bytes_remaining n) with hB | hB
  · rw [hB]
    simp only [jtag_dr_loop]
    rw [jtag_send_ok t _ (hw _) (exit1_dr_buf_ne_nil _)]
    simp [dr_op_finish, dr_op_recv_tail, hbits.1, hbits.2,
      (by omega : 0 < dr_bits_remaining n),
      jtag_recv_bits_short t H]
  · rcases dr_loop_short t tdi H (dr_bytes_remaining n) (dr_bytes_remaining n)
        0 0 [] { s with buf := jtag_rti_to_shift_dr s.buf } hB le_rfl with
      ⟨hle, r, hloop, hchunk⟩ | ⟨hgt, hloop⟩
    · rw [hloop]
      simp only [Option.map_some]
      simp only [if_pos (show dr_bits_remaining n > 0 by omega)]
      rw [jtag_send_ok t _ (hw _) (exit1_dr_buf_ne_nil _)]
      have hcpos : 0 < r.chunk_length := by omega
      split
      · rename_i hsd
        exact absurd rfl hsd
      · rw [if_pos (by trivial)]
        simp only [dr_op_finish, if_pos hcpos]
        split
        · simp
        · rename_i hrc
          exfalso
          rw [not_not] at hrc
          have hpos : (0 : Int) < (r.chunk_length : Int) := by
            exact_mod_cast hcpos
          exact absurd hrc (jtag_recv_short_pos t H _ _ hpos).ne'
    · rw [hloop]

/-! Lemmas about the chunk decomposition and the chunk loop against the
ideal transport. -/

theorem chunksF_nil_of_zero (f : Nat) : chunksF f 0 = [] := by
  cases f <;> simp [chunksF]

theorem chunksF_succ : ∀ (f b : Nat), b ≤ f → chunksF (f + 1) b = chunksF f b := by
  intro f
  induction f with
  | zero =>
    intro b hb
    obtain rfl : b = 0 := by omega
    simp [chunksF]
  | succ g ih =>
    intro b hb
    rcases Nat.eq_zero_or_pos b with rfl | hbpos
    · rw [chunksF_nil_of_zero, chunksF_nil_of_zero]
    · have hcs : (JTAG_CHUNK_SIZE : Nat) = 32768 := rfl
      simp only [chunksF, if_neg (by omega : ¬ b = 0)]
      congr 1
      exact ih (b - min b JTAG_CHUNK_SIZE) (by omega)

theorem chunksF_add : ∀ (d b : Nat), chunksF (b + d) b = chunksF b b := by
  intro d
  induction d with
  | zero => intro b; rfl
  | succ e ih =>
    intro b
    have h1 : b + (e + 1) = (b + e) + 1 := by omega
    rw [h1, chunksF_succ (b + e) b (by omega), ih]

theorem chunksF_of_le (f b : Nat) (h : b ≤ f) : chunksF f b = chunks b := by
  have h1 : f = b + (f - b) := by omega
  rw [chunks, h1, chunksF_add]

theorem chunks_cons (b : Nat) (hb : b ≠ 0) :
    chunks b = min b JTAG_CHUNK_SIZE :: chunks (b - min b JTAG_CHUNK_SIZE) := by
  obtain ⟨m, rfl⟩ : ∃ m, b = m + 1 := ⟨b - 1, by omega⟩
  have hcs : (JTAG_CHUNK_SIZE : Nat) = 32768 := rfl
  rw [chunks]
  simp only [chunksF, if_neg (by omega : ¬ m + 1 = 0)]
  congr 1
  exact chunksF_of_le m (m + 1 - min (m + 1) JTAG_CHUNK_SIZE) (by omega)

theorem chunks_ne_nil (b : Nat) (hb : b ≠ 0) : chunks b ≠ [] := by
  rw [chunks_cons b hb]
  simp

theorem chunksF_le : ∀ (f b c : Nat), c ∈ chunksF f b → c ≤ JTAG_CHUNK_SIZE := by
  intro f
  induction f with
  | zero =>
    intro b c hc
    simp [chunksF] at hc
  | succ g ih =>
    intro b c hc
    rcases Nat.eq_zero_or_pos b with rfl | hbpos
    · simp [chunksF] at hc
    · simp only [chunksF, if_neg (by omega : ¬ b = 0), List.mem_cons] at hc
      rcases hc with rfl | hc
      · exact Nat.min_le_right b JTAG_CHUNK_SIZE
      · exact ih _ _ hc

theorem map_trace_update (x : Option DrLoopResult) (hd : List DrEvent) :
    (x.map fun r => { r with trace := hd ++ r.trace }).map DrLoopResult.trace =
      (x.map DrLoopResult.trace).map (fun tr => hd ++ tr) := by
  cases x <;> rfl

theorem recvData_ideal (rIdx : Nat) (c : Nat) :
    recvData idealT.reads true rIdx (c : Int) = List.replicate c 0 := by
  simp [recvData, idealT]

theorem jtag_recv_ideal (s : JtagS) (c : Nat) (hc : 0 < c) :
    jtag_recv idealT s true (c : Int) =
      (0, List.replicate c 0, { s with rIdx := s.rIdx + 1 }) := by
  have h20 : JTAG_RECV_ATTEMPTS = 19 + 1 := rfl
  have hne : ¬ ((c : Int) ≤ 0) := by omega
  simp only [jtag_recv, h20, jtag_recv_go, if_neg hne, recvData_ideal]
  simp [recv_go_zero]

/-- Trace of the chunk loop against the ideal transport: exactly the spec
pattern over the greedy chunk decomposition, for any write buffer (none,
matching a read only transfer, or a payload, matching the write only and
read write transfers), any capture mode, and any starting state. -/
theorem dr_loop_trace_ideal (tdi : Option (List Nat)) :
    ∀ (fuel b : Nat), b ≤ fuel →
      ∀ (capture : Bool) (ch ti : Nat) (acc : List Nat) (s : JtagS),
      (jtag_dr_loop idealT tdi capture fuel b ch ti acc s).map DrLoopResult.trace =
        some (chunkPattern capture (chunks b)) := by
  intro fuel
  induction fuel with
  | zero =>
    intro b hb capture ch ti acc s
    obtain rfl : b = 0 := by omega
    simp [jtag_dr_loop, chunks, chunksF, chunkPattern]
  | succ f ih =>
    intro b hb capture ch ti acc s
    rcases Nat.eq_zero_or_pos b with rfl | hbpos
    · simp [jtag_dr_loop, chunks, chunksF, chunkPattern]
    · have hcs : (JTAG_CHUNK_SIZE : Nat) = 32768 := rfl
      simp only [jtag_dr_loop, if_neg (by omega : ¬ b = 0)]
      by_cases hrem : b - min b JTAG_CHUNK_SIZE = 0
      · rw [if_pos hrem]
        have hchunks : chunks b = [min b JTAG_CHUNK_SIZE] := by
          rw [chunks_cons b (by omega), hrem]
          rfl
        rw [hchunks]
        simp [chunkPattern]
      · rw [if_neg hrem]
        rw [jtag_send_ok idealT _ rfl (by simp [jtag_shift_bytes])]
        have hchunks := chunks_cons b (by omega)
        have hnn := chunks_ne_nil (b - min b JTAG_CHUNK_SIZE) hrem
        split
        · rename_i hsd
          exact absurd rfl hsd
        · cases capture with
          | false =>
            rw [if_neg (by simp : ¬ (false = true))]
            rw [map_trace_update,
              ih (b - min b JTAG_CHUNK_SIZE) (by omega) false]
            rw [hchunks]
            cases hcr : chunks (b - min b JTAG_CHUNK_SIZE) with
            | nil => exact absurd hcr hnn
            | cons y ys => simp [chunkPattern]
          | true =>
            rw [if_pos rfl]
            rw [jtag_recv_ideal _ (min b JTAG_CHUNK_SIZE) (by omega)]
            split
            · rename_i hrc
              exact absurd rfl hrc
            · rw [map_trace_update,
                ih (b - min b JTAG_CHUNK_SIZE) (by omega) true]
              rw [hchunks]
              cases hcr : chunks (b - min b JTAG_CHUNK_SIZE) with
              | nil => exact absurd hcr hnn
              | cons y ys => simp [chunkPattern]

/-- C3: the chunk loop of the data register transfer processes whole bytes
in chunks of at most JTAG_CHUNK_SIZE = 32768 bytes, and its transport
interaction trace is exactly the pattern in which every chunk except the
last is encoded, then flushed, then (when capturing) received, strictly
before the next chunk is encoded; the last chunk is only encoded. This
holds for every write buffer (read only, write only, and read write
transfers alike) and every capture mode, so in-flight reply data never
exceeds one chunk. -/
theorem c3_chunk_discipline :
    ∀ (tdi : Option (List Nat)) (b : Nat) (capture : Bool) (s : JtagS),
      ((jtag_dr_loop idealT tdi capture b b 0 0 [] s).map DrLoopResult.trace =
        some (chunkPattern capture (chunks b))) ∧
      ∀ c, c ∈ chunks b → c ≤ JTAG_CHUNK_SIZE :=
  fun tdi b capture s =>
    ⟨dr_loop_trace_ideal tdi b b le_rfl capture 0 0 [] s,
     fun c hc => chunksF_le b b c hc⟩

/-- Witness for C3 at a three chunk read write transfer of 70000 payload
bytes, the shape of the multi chunk bitstream write. -/
theorem c3_chunk_discipline_witness :
    ((jtag_dr_loop idealT (some (List.replicate 70000 0)) true 70000 70000
        0 0 [] s0).map DrLoopResult.trace =
      some (chunkPattern true (chunks 70000))) ∧
    32768 ≤ JTAG_CHUNK_SIZE :=
  ⟨(c3_chunk_discipline (some (List.replicate 70000 0)) 70000 true s0).1,
   (c3_chunk_discipline (some (List.replicate 70000 0)) 70000 true s0).2
     32768 (by decide)⟩

/-- C5: the receive loop makes at most JTAG_RECV_ATTEMPTS + 1 read calls for
any transport behaviour (the fixed attempt counter forces termination);
against a transport whose every read delivers fewer bytes than requested it
returns a positive count of bytes still outstanding (a timeout failure); and
such a transport makes any capturing data register transfer of at least one
bit fail with code 1 instead of hanging. -/
theorem c5_recv_timeout :
    (∀ (t : Transport) (s : JtagS) (w : Bool) (n : Int),
      (jtag_recv t s w n).2.2.rIdx ≤ s.rIdx + JTAG_RECV_ATTEMPTS + 1) ∧
    (∀ (t : Transport) (s : JtagS) (n : Int), 0 < n →
      (∀ k r, 0 < r → (t.reads k r).length < r) →
      0 < (jtag_recv t s true n).1) ∧
    (∀ (t : Transport) (tdi : Option (List Nat)) (n : Nat) (s : JtagS),
      (∀ k, t.writeOk k = true) →
      (∀ k r, 0 < r → (t.reads k r).length < r) →
      1 ≤ n → (jtag_dr_op t tdi true n s).1 = 1) := by
  refine ⟨?_, ?_, ?_⟩
  · intro t s w n
    have key := recv_go_rIdx_le t.reads w JTAG_RECV_ATTEMPTS s.rIdx n []
    simpa [jtag_recv] using key
  · intro t s n hn H
    exact jtag_recv_short_pos t H s n hn
  · intro t tdi n s hw H hn
    exact dr_op_short_fails t tdi n s hw H hn

/-- Witness for C5 against the transport double whose reads never deliver. -/
theorem c5_recv_timeout_witness :
    (jtag_recv emptyT s0 true 2).2.2.rIdx ≤ s0.rIdx + JTAG_RECV_ATTEMPTS + 1 ∧
    0 < (jtag_recv emptyT s0 true 2).1 ∧
    (jtag_dr_op emptyT none true 8 s0).1 = 1 :=
  ⟨c5_recv_timeout.1 emptyT s0 true 2,
   c5_recv_timeout.2.1 emptyT s0 2 (by decide)
     (fun k r hr => by simpa [emptyT] using hr),
   c5_recv_timeout.2.2 emptyT none 8 s0 (fun k => rfl)
     (fun k r hr => by simpa [emptyT] using hr) (by decide)⟩

end S6Prog
